import Mathlib

/-!
Shallow embedding of the KernelBench harness sources (`src/run.py`,
`src/utils.py`) in Lean 4.

Python strings are modelled as `List Char` (with `String` wrappers where
convenient).  External effects — the LLM query (`query_server`), the kernel
evaluator `eval_kernel_against_ref` (imported from `eval`, which is not part
of the sources), file writes and `print` calls — are modelled as explicit
oracle parameters and effect traces.  Python exceptions are modelled with
`Except PyError`.
-/

namespace KernelBench

/-! ### Python string primitives -/

/-- The whitespace characters stripped by Python `str.strip()` (ASCII part:
space, tab, newline, carriage return, vertical tab, form feed). -/
def pyIsSpace (c : Char) : Bool :=
  c = ' ' || c = '\t' || c = '\n' || c = '\x0d' || c = '\x0b' || c = '\x0c'

/-- Python `str.strip()`: drop leading and trailing whitespace. -/
def pyStrip (l : List Char) : List Char :=
  ((l.dropWhile pyIsSpace).reverse.dropWhile pyIsSpace).reverse

/-- The backtick character (code point 96). -/
def backtick : Char := Char.ofNat 96

/-- The three-character pattern of a triple backtick fence. -/
def bt3 : List Char := [backtick, backtick, backtick]

/-- Index of the first occurrence of `pat` as a contiguous sublist of `s`
(`none` when `pat` does not occur).  This is the position at which
`re.search` anchors a leftmost match. -/
def findSub (pat : List Char) : List Char → Option Nat
  | [] => if pat.isPrefixOf ([] : List Char) then some 0 else none
  | c :: rest =>
    if pat.isPrefixOf (c :: rest) then some 0
    else (findSub pat rest).map (· + 1)

/-- Python `int(s)` on the strings reachable here: optional surrounding
whitespace, an optional sign, then one or more decimal digits.  (Digit-group
underscores cannot occur in the inputs this model is applied to, because the
argument is always the part of a file name before its first underscore.)
Returns `none` where Python raises `ValueError`. -/
def digitsVal (l : List Char) : Option Nat :=
  if !l.isEmpty && l.all Char.isDigit then
    some (l.foldl (fun acc c => acc * 10 + (c.toNat - 48)) 0)
  else none

def pyInt? (l : List Char) : Option Int :=
  match pyStrip l with
  | '-' :: ds => (digitsVal ds).map (fun n => -(n : Int))
  | '+' :: ds => (digitsVal ds).map (fun n => (n : Int))
  | ds => (digitsVal ds).map (fun n => (n : Int))

/-- Python `os.path.join(dir, name)` for POSIX paths: an absolute `name`
replaces `dir`; otherwise the parts are joined with a single separator. -/
def os_path_join (dir name : List Char) : List Char :=
  if ['/'].isPrefixOf name then name
  else if dir = [] then name
  else if dir.getLast? = some '/' then dir ++ name
  else dir ++ '/' :: name

/-- Python `os.path.basename`: the part after the last `/`. -/
def os_path_basename (l : List Char) : List Char :=
  (l.reverse.takeWhile (fun c => c ≠ '/')).reverse

/-- Python `s.split('_')[0]`: the characters before the first underscore
(the whole string when there is no underscore). -/
def split_underscore_head (l : List Char) : List Char :=
  l.takeWhile (fun c => c ≠ '_')

/-! ### `utils.py`: `extract_first_code` -/

/-- Core of `extract_first_code` (utils.py:213-232) on `List Char`.

`re.search(r"` ``(.*?)`` `", trimmed, re.DOTALL)` produces the leftmost
match: the opening fence sits at the first occurrence of three backticks,
and the lazy group ends at the first occurrence of three backticks at least
three characters further on.  The captured group is then stripped, and a
leading language tag is removed (with another strip). -/
def extract_first_code_core (output_string code_language_type : List Char) :
    Option (List Char) :=
  let trimmed := pyStrip output_string
  match findSub bt3 trimmed with
  | none => none
  | some i =>
    let rest := trimmed.drop (i + 3)
    match findSub bt3 rest with
    | none => none
    | some k =>
      let code := pyStrip (rest.take k)
      some (if code_language_type.isPrefixOf code then
              pyStrip (code.drop code_language_type.length)
            else code)

/-- Model of `extract_first_code` (utils.py:213-232) on `String`. -/
def extract_first_code (output_string code_language_type : String) :
    Option String :=
  (extract_first_code_core output_string.data code_language_type.data).map
    String.mk

/-! ### `utils.py`: `construct_problem_dataset_from_problem_dir` -/

/-- The Python exceptions this model distinguishes. -/
inductive PyError where
  | assertionError (msg : String)
  | unboundLocalError (name : String)
  | valueError (msg : String)
  | evalError (msg : String)
deriving Repr, DecidableEq

deriving instance DecidableEq for Except

/-- The sort key of utils.py:249: `int(os.path.basename(x).split('_')[0])`,
`none` when `int` would raise `ValueError`. -/
def sortKey (x : List Char) : Option Int :=
  pyInt? (split_underscore_head (os_path_basename x))

/-- Total version of the sort key, used for the comparison relation once
every key is known to parse (then `getD` never takes its default). -/
def sortKeyD (x : List Char) : Int :=
  (sortKey x).getD 0

/-- The comparison relation the dataset is sorted by at utils.py:249:
ascending integer prefix of the file name. -/
def byKey (a b : List Char) : Prop :=
  sortKeyD a ≤ sortKeyD b

instance : DecidableRel byKey := fun a b => by
  unfold byKey
  infer_instance

instance : IsTotal (List Char) byKey :=
  ⟨fun a b => le_total (sortKeyD a) (sortKeyD b)⟩

instance : IsTrans (List Char) byKey :=
  ⟨fun _ _ _ => le_trans⟩

/-- Model of `construct_problem_dataset_from_problem_dir` (utils.py:234-250).
`listing` is the directory listing `os.listdir(problem_dir)` in whatever
order the OS returns it.  The function keeps the `.py` entries, joins them
to `problem_dir`, and sorts by the integer prefix of the file name.
Python `list.sort(key=...)` first applies the key to every element (a
non-integer prefix raises `ValueError`) and then sorts stably; Lean's
`List.insertionSort` with a `≤`-comparison is also stable, so the two agree
on the result. -/
def construct_problem_dataset_from_problem_dir
    (problem_dir : List Char) (listing : List (List Char)) :
    Except PyError (List (List Char)) :=
  let dataset := (listing.filter (fun n => List.isSuffixOf ".py".data n)).map
    (os_path_join problem_dir)
  if dataset.all (fun x => (sortKey x).isSome) then
    .ok (dataset.insertionSort byKey)
  else
    .error (.valueError "invalid literal for int() with base 10")

/-! ### `run.py`: data model and `compare_results` -/

/-- Modelled from the spec: `KernelExecResult` is imported in run.py:5 from
the `eval` module, which is missing from the sources; the spec describes it
as "an execution result record holding boolean compiled and correctness
flags plus optional performance data".  The optional performance data is
never consulted by the code under study and is omitted. -/
structure KernelExecResult where
  compiled : Bool
  correctness : Bool
deriving Repr, DecidableEq

/-- Model of `compare_results` (run.py:59-66).  The Python function returns
`True` on the three explicit branches and falls off the end (returning
`None`) otherwise; the caller only tests truthiness, so the fall-through is
modelled as `none`. -/
def compare_results (best_result : Option KernelExecResult)
    (new_result : KernelExecResult) : Option Bool :=
  match best_result with
  | none => some true
  | some best =>
    if new_result.compiled && !best.compiled then some true
    else if new_result.correctness && !best.correctness then some true
    else none

/-- Python truthiness of the values `compare_results` can produce. -/
def truthy : Option Bool → Bool
  | none => false
  | some b => b

/-! ### `run.py`: `run` -/

/-- The externally visible steps of one call to `run`, in the order they
happen; used to state pipeline-order and frame properties. -/
inductive Stage where
  | promptBuilt
  | llmQueried
  | codeExtracted
  | kernelFileWritten
  | evaluated
deriving Repr, DecidableEq

/-- Model of `run` (run.py:40-57).  The LLM reply to the generated prompt is
the oracle `response`; the behaviour of `eval_kernel_against_ref` on the
extracted kernel is the oracle `evalOutcome` (`.error e` models the call
raising an exception with message `e`).  Returns the trace of performed
stages together with the Python outcome.

Control flow of the source: the prompt is built (run.py:43-44), the LLM is
queried and the first code block extracted (`get_custom_cuda`, run.py:45 and
35-38), the `assert` fires when extraction returned `None` (run.py:48),
otherwise the kernel file is written (run.py:49-50) and the kernel is
evaluated (run.py:53-54).  When the evaluation raises, the handler stores
`str(e)` in the local `metadata` (run.py:55-56), but the local
`kernel_exec_result` was never assigned, so the `return` on run.py:57
raises `UnboundLocalError` instead of returning a triple.  On the
non-raising path `metadata` is still `None` from run.py:52. -/
def run (response : String) (evalOutcome : Except String KernelExecResult) :
    List Stage × Except PyError (String × KernelExecResult × Option String) :=
  match extract_first_code response "python" with
  | none =>
    ([.promptBuilt, .llmQueried, .codeExtracted],
     .error (.assertionError "Custom CUDA code generation failed"))
  | some custom_cuda =>
    match evalOutcome with
    | .ok kernel_exec_result =>
      ([.promptBuilt, .llmQueried, .codeExtracted, .kernelFileWritten,
        .evaluated],
       .ok (custom_cuda, kernel_exec_result, none))
    | .error _ =>
      ([.promptBuilt, .llmQueried, .codeExtracted, .kernelFileWritten,
        .evaluated],
       .error (.unboundLocalError "kernel_exec_result"))

/-! ### `run.py`: `run_multiturn` -/

/-- The three branches of the loop body of `run_multiturn` (run.py:76-89). -/
inductive Branch where
  | fixCompile
  | fixCorrectness
  | improvePerf
deriving Repr, DecidableEq

/-- Oracle for one loop turn: the LLM reply to whichever fix prompt is sent,
and the behaviour of `eval_kernel_against_ref` on the newly extracted
kernel. -/
structure TurnOracle where
  response : String
  evalOutcome : Except String KernelExecResult

/-- The local variables of `run_multiturn` (run.py:70-73).  `custom_cuda`
can become `None` after a turn because `get_custom_cuda` returns the result
of `extract_first_code` unchecked. -/
structure LoopState where
  custom_cuda : Option String
  result : KernelExecResult
  metadata : Option String
  best_custom_cuda : Option String
  best_result : KernelExecResult
deriving Repr, DecidableEq

/-- Observable record of one loop turn: which branch ran, the
`(ref_arch_src, custom_cuda, metadata)` arguments passed to the fix prompt
(`none` when no prompt was sent), and whether `eval_kernel_against_ref` was
called. -/
structure TurnEvent where
  branch : Branch
  prompt : Option (String × Option String × Option String)
  evaluated : Bool
deriving Repr, DecidableEq

/-- The best-result update at run.py:90-92: `best_result` and
`best_custom_cuda` are replaced when `compare_results` is truthy.  Inside
the loop `best_result` is an actual record, never `None`. -/
def update_best (st : LoopState) : LoopState :=
  if truthy (compare_results (some st.best_result) st.result) then
    { st with best_result := st.result, best_custom_cuda := st.custom_cuda }
  else st

/-- One iteration of the loop body of `run_multiturn` (run.py:75-92).
The two fix branches send a prompt, extract a kernel from the oracle reply,
and re-evaluate; the evaluation is not inside any `try`, so an
`eval_kernel_against_ref` exception aborts the turn (and the whole loop)
after the prompt was sent.  The third branch only prints.  Every completed
turn ends with the best-result update. -/
def multiturn_step (ref_arch_src : String) (o : TurnOracle) (st : LoopState) :
    TurnEvent × Except PyError LoopState :=
  if !st.result.compiled then
    let ev : TurnEvent :=
      { branch := .fixCompile,
        prompt := some (ref_arch_src, st.custom_cuda, st.metadata),
        evaluated := true }
    match o.evalOutcome with
    | .error e => (ev, .error (.evalError e))
    | .ok r =>
      (ev, .ok (update_best { st with
        custom_cuda := extract_first_code o.response "python", result := r }))
  else if !st.result.correctness then
    let ev : TurnEvent :=
      { branch := .fixCorrectness,
        prompt := some (ref_arch_src, st.custom_cuda, st.metadata),
        evaluated := true }
    match o.evalOutcome with
    | .error e => (ev, .error (.evalError e))
    | .ok r =>
      (ev, .ok (update_best { st with
        custom_cuda := extract_first_code o.response "python", result := r }))
  else
    ({ branch := .improvePerf, prompt := none, evaluated := false },
     .ok (update_best st))

/-- The `for turn in range(turns)` loop of `run_multiturn` (run.py:75-92),
starting at turn index `t` with `n` turns remaining.  Returns the events of
the turns that ran (including a turn aborted by an evaluation exception)
and the final state or the propagated exception. -/
def run_turns_from (ref_arch_src : String) (oracles : Nat → TurnOracle) :
    Nat → Nat → LoopState → List TurnEvent × Except PyError LoopState
  | _, 0, st => ([], .ok st)
  | t, n + 1, st =>
    match multiturn_step ref_arch_src (oracles t) st with
    | (ev, .error e) => ([ev], .error e)
    | (ev, .ok st1) =>
      match run_turns_from ref_arch_src oracles (t + 1) n st1 with
      | (evs, r) => (ev :: evs, r)

/-- Model of `run_multiturn` (run.py:68-94).  `initResponse` and `initEval`
are the oracles consumed by the initial `run` call (run.py:70); `oracles`
supplies one `TurnOracle` per turn index.  The Python default for `turns`
is 10. -/
def run_multiturn (ref_arch_src : String) (initResponse : String)
    (initEval : Except String KernelExecResult) (oracles : Nat → TurnOracle)
    (turns : Nat) :
    Except PyError (Option String × KernelExecResult) :=
  match (run initResponse initEval).2 with
  | .error e => .error e
  | .ok (custom_cuda, result, metadata) =>
    let st0 : LoopState :=
      { custom_cuda := some custom_cuda, result := result,
        metadata := metadata, best_custom_cuda := some custom_cuda,
        best_result := result }
    match (run_turns_from ref_arch_src oracles 0 turns st0).2 with
    | .error e => .error e
    | .ok st => .ok (st.best_custom_cuda, st.best_result)

/-! ### Statement-side definitions, written from the claims -/

/-- Statement-side predicate, written from the claim C9: the string contains
a substring enclosed in a pair of triple backticks, i.e. an occurrence of
three backticks and another one at least three characters later. -/
def hasFencedBlock (s : List Char) : Prop :=
  ∃ i j, i + 3 ≤ j ∧ bt3.isPrefixOf (s.drop i) = true ∧
    bt3.isPrefixOf (s.drop j) = true

/-- Statement-side order, written from the claim C1: `newr` is strictly
greater than `best` in the lexicographic order that compares the `compiled`
flag first (with `false < true`) and the `correctness` flag second. -/
def lexGTb (newr best : KernelExecResult) : Bool :=
  (!best.compiled && newr.compiled) ||
    (newr.compiled == best.compiled && !best.correctness && newr.correctness)

/-- The result-record invariant of claim C5: `correctness = true` implies
`compiled = true`. -/
def ResultOk (r : KernelExecResult) : Prop :=
  r.correctness = true → r.compiled = true

/-- The loop-state form of the C5 invariant: both the current result and
the tracked best result satisfy `ResultOk`. -/
def StateOk (st : LoopState) : Prop :=
  ResultOk st.result ∧ ResultOk st.best_result

/-- Modelled from the spec: the behaviour of `eval_kernel_against_ref` is
missing from the sources (it lives in the external `eval` module), and the
spec's data model asserts of its result records that "correctness=true
implies compiled=true"; this predicate states that every record an oracle
family can produce satisfies that invariant. -/
def evalProducesValidResults (oracles : Nat → TurnOracle) : Prop :=
  ∀ t r, (oracles t).evalOutcome = .ok r → ResultOk r

/-! ### Helper lemmas about `findSub` -/

theorem findSub_eq_none (pat : List Char) :
    ∀ s : List Char,
      findSub pat s = none ↔ ∀ i, ¬ pat.isPrefixOf (s.drop i) = true
  | [] => by
    simp only [findSub, List.drop_nil]
    split
    · rename_i h
      simp [h]
    · rename_i h
      simp [h]
  | c :: rest => by
    simp only [findSub]
    split
    · rename_i h
      constructor
      · intro hcontra
        exact absurd hcontra (by simp)
      · intro hall
        exact absurd h (by simpa using hall 0)
    · rename_i h
      rw [Option.map_eq_none', findSub_eq_none pat rest]
      constructor
      · intro hall i
        match i with
        | 0 => simpa using h
        | i + 1 => simpa using hall i
      · intro hall i
        simpa using hall (i + 1)

theorem findSub_eq_some (pat : List Char) :
    ∀ (s : List Char) (i : Nat), findSub pat s = some i →
      pat.isPrefixOf (s.drop i) = true ∧
        ∀ j, j < i → ¬ pat.isPrefixOf (s.drop j) = true
  | [], i => by
    simp only [findSub]
    split
    · rename_i h
      intro hi
      obtain rfl : i = 0 := by simpa using hi.symm
      exact ⟨by simpa using h, by omega⟩
    · intro hi
      exact absurd hi (by simp)
  | c :: rest, i => by
    simp only [findSub]
    split
    · rename_i h
      intro hi
      obtain rfl : i = 0 := by simpa using hi.symm
      exact ⟨by simpa using h, by omega⟩
    · rename_i h
      intro hi
      obtain ⟨i0, hfind, rfl⟩ := Option.map_eq_some'.mp hi
      obtain ⟨hocc, hmin⟩ := findSub_eq_some pat rest i0 hfind
      refine ⟨by simpa using hocc, ?_⟩
      intro j hj
      match j with
      | 0 => simpa using h
      | j + 1 => simpa using hmin j (by omega)

theorem findSub_isSome (pat s : List Char) (i : Nat)
    (h : pat.isPrefixOf (s.drop i) = true) : (findSub pat s).isSome = true := by
  rcases hf : findSub pat s with _ | i0
  · exact absurd h ((findSub_eq_none pat s).mp hf i)
  · rfl

/-- C9: for every output string and language tag, `extract_first_code`
returns `None` exactly when the stripped string contains no substring
enclosed in a pair of triple backticks; otherwise it returns the content of
the first such enclosed block (leftmost opening fence, then earliest closing
fence) with surrounding whitespace stripped, and with the language tag
removed from the front (followed by another whitespace strip) when the
block content starts with that tag. -/
theorem extract_first_code_spec (output lang : List Char) :
    (extract_first_code_core output lang = none ↔
      ¬ hasFencedBlock (pyStrip output)) ∧
    (∀ code, extract_first_code_core output lang = some code →
      ∃ i j, i + 3 ≤ j ∧
        bt3.isPrefixOf ((pyStrip output).drop i) = true ∧
        (∀ a, a < i → ¬ bt3.isPrefixOf ((pyStrip output).drop a) = true) ∧
        bt3.isPrefixOf ((pyStrip output).drop j) = true ∧
        (∀ b, i + 3 ≤ b → b < j →
          ¬ bt3.isPrefixOf ((pyStrip output).drop b) = true) ∧
        code =
          (let raw :=
            pyStrip (((pyStrip output).drop (i + 3)).take (j - (i + 3)))
           if lang.isPrefixOf raw then pyStrip (raw.drop lang.length)
           else raw)) := by
  have hdd : ∀ m n : Nat,
      ((pyStrip output).drop m).drop n = (pyStrip output).drop (m + n) :=
    fun m n => List.drop_drop n m _
  rcases hf1 : findSub bt3 (pyStrip output) with _ | i
  · constructor
    · simp only [extract_first_code_core, hf1]
      constructor
      · rintro - ⟨a, b, -, ha, -⟩
        exact (findSub_eq_none bt3 (pyStrip output)).mp hf1 a ha
      · intro _
        trivial
    · intro code hcode
      simp only [extract_first_code_core, hf1] at hcode
      exact absurd hcode (by simp)
  · obtain ⟨hocc1, hmin1⟩ := findSub_eq_some bt3 (pyStrip output) i hf1
    rcases hf2 : findSub bt3 ((pyStrip output).drop (i + 3)) with _ | k
    · constructor
      · simp only [extract_first_code_core, hf1, hf2]
        constructor
        · rintro - ⟨a, b, hab, ha, hb⟩
          have hia : i ≤ a := by
            by_contra hlt
            exact hmin1 a (by omega) ha
          have hb3 : i + 3 ≤ b := by omega
          have : bt3.isPrefixOf (((pyStrip output).drop (i + 3)).drop
              (b - (i + 3))) = true := by
            rw [hdd]
            have : i + 3 + (b - (i + 3)) = b := by omega
            rw [this]
            exact hb
          have := findSub_isSome bt3 _ _ this
          rw [hf2] at this
          exact absurd this (by simp)
        · intro _
          trivial
      · intro code hcode
        simp only [extract_first_code_core, hf1, hf2] at hcode
        exact absurd hcode (by simp)
    · obtain ⟨hocc2, hmin2⟩ :=
        findSub_eq_some bt3 ((pyStrip output).drop (i + 3)) k hf2
      constructor
      · simp only [extract_first_code_core, hf1, hf2]
        constructor
        · intro h
          exact absurd h (by simp)
        · intro hno
          exfalso
          apply hno
          refine ⟨i, i + 3 + k, by omega, hocc1, ?_⟩
          rw [← hdd]
          exact hocc2
      · intro code hcode
        simp only [extract_first_code_core, hf1, hf2, Option.some_inj]
          at hcode
        refine ⟨i, i + 3 + k, by omega, hocc1, fun a ha => hmin1 a ha, ?_, ?_, ?_⟩
        · rw [← hdd]
          exact hocc2
        · intro b hb1 hb2
          have heq : i + 3 + (b - (i + 3)) = b := by omega
          intro hpre
          apply hmin2 (b - (i + 3)) (by omega)
          rw [hdd, heq]
          exact hpre
        · have hk : i + 3 + k - (i + 3) = k := by omega
          rw [hk]
          exact hcode.symm

/-- Witness for C9: the characterization applied to a concrete LLM reply
containing one fenced python block. -/
theorem extract_first_code_spec_witness :
    ∃ i j, i + 3 ≤ j ∧
      bt3.isPrefixOf ((pyStrip "x ```python\nfoo``` y".data).drop i) = true ∧
      bt3.isPrefixOf ((pyStrip "x ```python\nfoo``` y".data).drop j) = true :=
  match (extract_first_code_spec "x ```python\nfoo``` y".data
      "python".data).2 "foo".data (by decide) with
  | ⟨i, j, h1, h2, _, h4, _, _⟩ => ⟨i, j, h1, h2, h4⟩

/-- C1 counterexample: with `best = (compiled := true, correctness :=
false)` and `new = (compiled := false, correctness := true)`,
`compare_results` is truthy (run.py:64 fires) although `(new.compiled,
new.correctness)` is lexicographically strictly below `(best.compiled,
best.correctness)`; so truthiness is not equivalent to the lexicographic
comparison on arbitrary result pairs. -/
theorem compare_results_not_lexicographic :
    truthy (compare_results
      (some { compiled := true, correctness := false })
      { compiled := false, correctness := true }) = true ∧
    lexGTb { compiled := false, correctness := true }
      { compiled := true, correctness := false } = false := by
  decide

/-- C1 (amended): restricted to result records satisfying the invariant
`correctness = true → compiled = true` (which holds for every record the
control loop actually compares), `compare_results best new` is truthy if
and only if `best` is `None` or `new` is strictly greater than `best` in
the lexicographic order comparing `compiled` first and `correctness`
second; there is no tie-break on performance. -/
theorem compare_results_lex_of_valid (b newr : KernelExecResult)
    (hnew : newr.correctness = true → newr.compiled = true)
    (hb : b.correctness = true → b.compiled = true) :
    (truthy (compare_results (some b) newr) = true ↔ lexGTb newr b = true) ∧
    truthy (compare_results none newr) = true := by
  obtain ⟨nc, ncr⟩ := newr
  obtain ⟨bc, bcc⟩ := b
  revert hnew hb
  cases nc <;> cases ncr <;> cases bc <;> cases bcc <;> decide

/-- Witness for C1 (amended) at a concrete pair of valid records. -/
theorem compare_results_lex_of_valid_witness :
    (truthy (compare_results
        (some { compiled := true, correctness := false })
        { compiled := true, correctness := true }) = true ↔
      lexGTb { compiled := true, correctness := true }
        { compiled := true, correctness := false } = true) ∧
    truthy (compare_results none
      { compiled := true, correctness := true }) = true :=
  compare_results_lex_of_valid
    { compiled := true, correctness := false }
    { compiled := true, correctness := true }
    (by decide) (by decide)

/-- C7: a single invocation of `run` performs the pipeline stages as direct
sequential calls in the order prompt builder, one LLM query, code
extraction, kernel file write, compile/correctness evaluation, and returns
the extracted kernel source together with the evaluation result and the
metadata (which is `None` on this path, run.py:52). -/
theorem run_pipeline_order (response cc : String)
    (r : KernelExecResult)
    (hx : extract_first_code response "python" = some cc) :
    run response (.ok r) =
      ([.promptBuilt, .llmQueried, .codeExtracted, .kernelFileWritten,
        .evaluated],
       .ok (cc, r, none)) := by
  unfold run
  rw [hx]

/-- Witness for C7 at a concrete LLM reply and evaluation result. -/
theorem run_pipeline_order_witness :
    run "```python\nk```" (.ok { compiled := true, correctness := true }) =
      ([.promptBuilt, .llmQueried, .codeExtracted, .kernelFileWritten,
        .evaluated],
       .ok ("k", { compiled := true, correctness := true }, none)) :=
  run_pipeline_order "```python\nk```" "k"
    { compiled := true, correctness := true } (by decide)

/-- C10: whenever code extraction on the LLM response yields `None`, `run`
raises an `AssertionError` (run.py:48), writes no kernel file, performs no
evaluation, and returns no result. -/
theorem run_assert_on_extraction_failure (response : String)
    (evalOut : Except String KernelExecResult)
    (hx : extract_first_code response "python" = none) :
    run response evalOut =
      ([.promptBuilt, .llmQueried, .codeExtracted],
       .error (.assertionError "Custom CUDA code generation failed")) ∧
    Stage.kernelFileWritten ∉ (run response evalOut).1 ∧
    Stage.evaluated ∉ (run response evalOut).1 := by
  unfold run
  rw [hx]
  refine ⟨rfl, ?_, ?_⟩ <;> simp

/-- Witness for C10 at a concrete blockless LLM reply. -/
theorem run_assert_on_extraction_failure_witness :
    run "no code here" (.ok { compiled := true, correctness := true }) =
      ([.promptBuilt, .llmQueried, .codeExtracted],
       .error (.assertionError "Custom CUDA code generation failed")) ∧
    Stage.kernelFileWritten ∉
      (run "no code here"
        (.ok { compiled := true, correctness := true })).1 ∧
    Stage.evaluated ∉
      (run "no code here"
        (.ok { compiled := true, correctness := true })).1 :=
  run_assert_on_extraction_failure "no code here"
    (.ok { compiled := true, correctness := true }) (by decide)

/-- C6 counterexample: for the listing `["10_a.py", "2_b.py"]` — which is
already in sorted directory-listing order, since `"10_a.py" < "2_b.py"`
lexicographically — the loader returns the paths in the order
`d/2_b.py, d/10_a.py` (ascending integer prefix, utils.py:249), which is
not the sorted directory-listing order. -/
theorem construct_problem_dataset_not_listing_order :
    construct_problem_dataset_from_problem_dir "d".data
        ["10_a.py".data, "2_b.py".data] =
      .ok ["d/2_b.py".data, "d/10_a.py".data] ∧
    ("10_a.py".data < "2_b.py".data) ∧
    ["d/2_b.py".data, "d/10_a.py".data] ≠
      ["d/10_a.py".data, "d/2_b.py".data] := by
  refine ⟨by decide, by decide, by decide⟩

/-- C6 (amended): for every problem directory, the dataset loader returns a
list containing exactly one path for each file in the directory whose name
ends in `.py`, ordered by the integer numerical prefix of the file name
(the part of the base name before its first underscore, parsed as an
integer) — not by sorted directory-listing order; an integer problem
identifier denotes the source file path at that position of this
numerically sorted list.  The hypothesis states that every kept file name
has a parseable integer prefix (otherwise Python raises `ValueError`). -/
theorem construct_problem_dataset_numeric_order
    (problem_dir : List Char) (listing : List (List Char))
    (hkeys : ∀ x ∈ (listing.filter
        (fun n => List.isSuffixOf ".py".data n)).map (os_path_join problem_dir),
      (sortKey x).isSome = true) :
    ∃ l, construct_problem_dataset_from_problem_dir problem_dir listing =
        .ok l ∧
      l.Perm ((listing.filter
        (fun n => List.isSuffixOf ".py".data n)).map
          (os_path_join problem_dir)) ∧
      l.Sorted byKey := by
  unfold construct_problem_dataset_from_problem_dir
  rw [if_pos (List.all_eq_true.mpr hkeys)]
  exact ⟨_, rfl, List.perm_insertionSort byKey _,
    List.sorted_insertionSort byKey _⟩

/-- Witness for C6 (amended) at a concrete listing. -/
theorem construct_problem_dataset_numeric_order_witness :
    ∃ l, construct_problem_dataset_from_problem_dir "d".data
        ["10_a.py".data, "2_b.py".data, "readme.md".data] = .ok l ∧
      l.Perm ((["10_a.py".data, "2_b.py".data, "readme.md".data].filter
        (fun n => List.isSuffixOf ".py".data n)).map
          (os_path_join "d".data)) ∧
      l.Sorted byKey :=
  construct_problem_dataset_numeric_order "d".data
    ["10_a.py".data, "2_b.py".data, "readme.md".data] (by decide)

/-! ### Helper lemmas about the `run_multiturn` loop body -/

theorem update_best_metadata (st : LoopState) :
    (update_best st).metadata = st.metadata := by
  unfold update_best
  split <;> rfl

theorem update_best_result (st : LoopState) :
    (update_best st).result = st.result := by
  unfold update_best
  split <;> rfl

theorem update_best_custom_cuda (st : LoopState) :
    (update_best st).custom_cuda = st.custom_cuda := by
  unfold update_best
  split <;> rfl

theorem update_best_stateOk (st : LoopState) (h1 : ResultOk st.result)
    (h2 : ResultOk st.best_result) : StateOk (update_best st) := by
  unfold update_best
  split
  · exact ⟨h1, h1⟩
  · exact ⟨h1, h2⟩

/-- Case analysis of one loop turn: it either only runs the best-result
update (performance branch), or re-evaluates and runs the best-result
update on the new result, or aborts with the propagated evaluation
exception. -/
theorem multiturn_step_snd (ref : String) (o : TurnOracle) (st : LoopState) :
    (multiturn_step ref o st).2 = .ok (update_best st) ∨
    (∃ r, o.evalOutcome = .ok r ∧
      (multiturn_step ref o st).2 = .ok (update_best { st with
        custom_cuda := extract_first_code o.response "python",
        result := r })) ∨
    (∃ e, o.evalOutcome = .error e ∧
      (multiturn_step ref o st).2 = .error (.evalError e)) := by
  rcases ho : o.evalOutcome with e | r
  · by_cases h1 : st.result.compiled
    · by_cases h2 : st.result.correctness
      · left
        simp [multiturn_step, h1, h2]
      · right; right
        exact ⟨e, rfl, by simp [multiturn_step, h1, h2, ho]⟩
    · right; right
      exact ⟨e, rfl, by simp [multiturn_step, h1, ho]⟩
  · by_cases h1 : st.result.compiled
    · by_cases h2 : st.result.correctness
      · left
        simp [multiturn_step, h1, h2]
      · right; left
        exact ⟨r, rfl, by simp [multiturn_step, h1, h2, ho]⟩
    · right; left
      exact ⟨r, rfl, by simp [multiturn_step, h1, ho]⟩

theorem multiturn_step_metadata (ref : String) (o : TurnOracle)
    (st st1 : LoopState) (h : (multiturn_step ref o st).2 = .ok st1) :
    st1.metadata = st.metadata := by
  rcases multiturn_step_snd ref o st with hc | ⟨r, -, hc⟩ | ⟨e, -, hc⟩ <;>
    rw [hc] at h
  · cases h
    exact update_best_metadata st
  · cases h
    exact update_best_metadata _
  · exact absurd h (by simp)

theorem multiturn_step_prompt_metadata (ref : String) (o : TurnOracle)
    (st : LoopState) (p : String × Option String × Option String)
    (h : (multiturn_step ref o st).1.prompt = some p) :
    p.2.2 = st.metadata := by
  unfold multiturn_step at h
  by_cases h1 : st.result.compiled
  · by_cases h2 : st.result.correctness
    · simp [h1, h2] at h
    · rcases ho : o.evalOutcome with e | r <;>
        simp [h1, h2, ho] at h <;> rw [← h]
  · rcases ho : o.evalOutcome with e | r <;>
      simp [h1, ho] at h <;> rw [← h]

theorem multiturn_step_ok_of_eval_ok (ref : String) (o : TurnOracle)
    (st : LoopState) (r : KernelExecResult) (ho : o.evalOutcome = .ok r) :
    ∃ st1, (multiturn_step ref o st).2 = .ok st1 := by
  rcases multiturn_step_snd ref o st with hc | ⟨r1, -, hc⟩ | ⟨e, he, hc⟩
  · exact ⟨_, hc⟩
  · exact ⟨_, hc⟩
  · rw [ho] at he
    exact Except.noConfusion he

/-- C3: on each turn of `run_multiturn`, exactly one of three branches is
taken based on the current result: if it did not compile, a compile-fix
prompt is issued and the kernel is re-evaluated; otherwise, if it is not
correct, a correctness-fix prompt is issued and the kernel is
re-evaluated; otherwise no new kernel is requested and the current result
is left unchanged (performance improvement is a no-op). -/
theorem multiturn_step_branches (ref : String) (o : TurnOracle)
    (st : LoopState) (r : KernelExecResult) (ho : o.evalOutcome = .ok r) :
    (st.result.compiled = false →
      (multiturn_step ref o st).1 =
        { branch := .fixCompile,
          prompt := some (ref, st.custom_cuda, st.metadata),
          evaluated := true } ∧
      (multiturn_step ref o st).2 = .ok (update_best { st with
        custom_cuda := extract_first_code o.response "python",
        result := r })) ∧
    (st.result.compiled = true → st.result.correctness = false →
      (multiturn_step ref o st).1 =
        { branch := .fixCorrectness,
          prompt := some (ref, st.custom_cuda, st.metadata),
          evaluated := true } ∧
      (multiturn_step ref o st).2 = .ok (update_best { st with
        custom_cuda := extract_first_code o.response "python",
        result := r })) ∧
    (st.result.compiled = true → st.result.correctness = true →
      (multiturn_step ref o st).1 =
        { branch := .improvePerf, prompt := none, evaluated := false } ∧
      (multiturn_step ref o st).2 = .ok (update_best st) ∧
      (update_best st).result = st.result ∧
      (update_best st).custom_cuda = st.custom_cuda) := by
  refine ⟨?_, ?_, ?_⟩
  · intro h1
    constructor <;> simp [multiturn_step, h1, ho]
  · intro h1 h2
    constructor <;> simp [multiturn_step, h1, h2, ho]
  · intro h1 h2
    refine ⟨?_, ?_, update_best_result st, update_best_custom_cuda st⟩ <;>
      simp [multiturn_step, h1, h2]

/-- Witness for C3: the compile-fix branch at a concrete state. -/
theorem multiturn_step_branches_witness :
    (multiturn_step "ref"
      { response := "```python\nk2```",
        evalOutcome := .ok { compiled := true, correctness := false } }
      { custom_cuda := some "k",
        result := { compiled := false, correctness := false },
        metadata := none, best_custom_cuda := some "k",
        best_result := { compiled := false, correctness := false } }).1 =
      { branch := .fixCompile, prompt := some ("ref", some "k", none),
        evaluated := true } :=
  ((multiturn_step_branches "ref"
    { response := "```python\nk2```",
      evalOutcome := .ok { compiled := true, correctness := false } }
    { custom_cuda := some "k",
      result := { compiled := false, correctness := false },
      metadata := none, best_custom_cuda := some "k",
      best_result := { compiled := false, correctness := false } }
    { compiled := true, correctness := false } rfl).1 rfl).1

/-- C4: for every non-negative `turns`, the retry loop of `run_multiturn`
executes exactly `turns` iterations and then returns (the Python default
for `turns` is 10); provided each per-turn evaluation returns a result
record, the loop terminates with a final state after the fixed turn count
regardless of the `compiled`/`correctness` values the generated kernels
ever achieve, and `run_multiturn` returns a best pair. -/
theorem run_multiturn_fixed_turn_count (ref response cc : String)
    (r0 : KernelExecResult) (oracles : Nat → TurnOracle) (turns : Nat)
    (hx : extract_first_code response "python" = some cc)
    (hev : ∀ t, ∃ r, (oracles t).evalOutcome = .ok r) :
    (∀ t0 st, ((run_turns_from ref oracles t0 turns st).1).length = turns ∧
      ∃ st1, (run_turns_from ref oracles t0 turns st).2 = .ok st1) ∧
    ∃ best, run_multiturn ref response (.ok r0) oracles turns = .ok best := by
  have hloop : ∀ n t0 st,
      ((run_turns_from ref oracles t0 n st).1).length = n ∧
      ∃ st1, (run_turns_from ref oracles t0 n st).2 = .ok st1 := by
    intro n
    induction n with
    | zero =>
      intro t0 st
      exact ⟨rfl, st, rfl⟩
    | succ n ih =>
      intro t0 st
      obtain ⟨r, hr⟩ := hev t0
      obtain ⟨st1, hst1⟩ := multiturn_step_ok_of_eval_ok ref (oracles t0) st r hr
      rcases hp : multiturn_step ref (oracles t0) st with ⟨ev, r2⟩
      rw [hp] at hst1
      obtain rfl : r2 = .ok st1 := hst1
      obtain ⟨ih1, st2, ih2⟩ := ih (t0 + 1) st1
      constructor
      · simp [run_turns_from, hp, ih1]
      · exact ⟨st2, by simp [run_turns_from, hp, ih2]⟩
  refine ⟨hloop turns, ?_⟩
  have hrun : (run response (.ok r0)).2 = .ok (cc, r0, none) := by
    unfold run
    rw [hx]
  obtain ⟨-, st1, h1⟩ := hloop turns 0
    { custom_cuda := some cc, result := r0, metadata := none,
      best_custom_cuda := some cc, best_result := r0 }
  exact ⟨(st1.best_custom_cuda, st1.best_result), by
    simp [run_multiturn, hrun, h1]⟩

/-- Witness for C4 at a concrete reply, oracle and turn count. -/
theorem run_multiturn_fixed_turn_count_witness :
    ∃ best, run_multiturn "ref" "```python\nk```"
      (.ok { compiled := false, correctness := false })
      (fun _ => { response := "```python\nk2```",
                  evalOutcome := .ok { compiled := true, correctness := false } })
      3 = .ok best :=
  (run_multiturn_fixed_turn_count "ref" "```python\nk```" "k"
    { compiled := false, correctness := false }
    (fun _ => { response := "```python\nk2```",
                evalOutcome := .ok { compiled := true, correctness := false } })
    3 (by decide)
    (fun _ => ⟨{ compiled := true, correctness := false }, rfl⟩)).2

/-- C5: for every result record flowing through the control loop, the
invariant `correctness = true → compiled = true` is maintained by the
control flow: `run` hands the evaluator result through unchanged (first
conjunct), and every loop state — covering the per-turn result and the
tracked best result, at every intermediate point, since the start state is
arbitrary — keeps the invariant as long as the evaluator only produces
records satisfying it (hypothesis `hev`, modelled from the spec because
`eval_kernel_against_ref` is external to the sources). -/
theorem correctness_implies_compiled_invariant (ref : String)
    (oracles : Nat → TurnOracle)
    (hev : evalProducesValidResults oracles) :
    (∀ (response : String) (evalOut : Except String KernelExecResult)
      (tr : List Stage) (cc : String) (r : KernelExecResult)
      (md : Option String),
      run response evalOut = (tr, .ok (cc, r, md)) → evalOut = .ok r) ∧
    (∀ turns t0 st, StateOk st → ∀ st1,
      (run_turns_from ref oracles t0 turns st).2 = .ok st1 →
      StateOk st1) := by
  constructor
  · intro response evalOut tr cc r md h
    unfold run at h
    rcases hx : extract_first_code response "python" with _ | cc1 <;>
      rw [hx] at h
    · simp at h
    · rcases evalOut with e | r1
      · simp at h
      · cases h
        rfl
  · intro turns
    induction turns with
    | zero =>
      intro t0 st hst st1 h
      obtain rfl : st = st1 := by
        simpa [run_turns_from] using h
      exact hst
    | succ n ih =>
      intro t0 st hst st1 h
      rcases hp : multiturn_step ref (oracles t0) st with ⟨ev, r2⟩
      rcases r2 with e | st2
      · rw [show (run_turns_from ref oracles t0 (n + 1) st).2 = .error e by
          simp [run_turns_from, hp]] at h
        exact absurd h (by simp)
      · have hst2 : StateOk st2 := by
          have hsnd := multiturn_step_snd ref (oracles t0) st
          rw [hp] at hsnd
          rcases hsnd with hc | ⟨r1, hr1, hc⟩ | ⟨e1, he1, hc⟩
          · obtain rfl : st2 = update_best st := by
              simpa using hc
            exact update_best_stateOk st hst.1 hst.2
          · obtain rfl : st2 = update_best { st with
                custom_cuda := extract_first_code (oracles t0).response "python",
                result := r1 } := by
              simpa using hc
            exact update_best_stateOk _ (hev t0 r1 hr1) hst.2
          · exact absurd hc (by simp)
        have hrest : (run_turns_from ref oracles (t0 + 1) n st2).2 = .ok st1 := by
          rw [show (run_turns_from ref oracles t0 (n + 1) st).2 =
            (run_turns_from ref oracles (t0 + 1) n st2).2 by
              simp [run_turns_from, hp]] at h
          exact h
        exact ih (t0 + 1) st2 hst2 st1 hrest

/-- Witness for C5 at a concrete oracle, start state and turn count. -/
theorem correctness_implies_compiled_invariant_witness :
    StateOk { custom_cuda := some "k2",
              result := { compiled := true, correctness := true },
              metadata := none, best_custom_cuda := some "k2",
              best_result := { compiled := true, correctness := true } } :=
  (correctness_implies_compiled_invariant "ref"
    (fun _ => { response := "```python\nk2```",
                evalOutcome := .ok { compiled := true, correctness := true } })
    (fun _ r h => by
      obtain rfl : { compiled := true, correctness := true } = r := by
        simpa using h
      exact fun _ => rfl)).2
    1 0
    { custom_cuda := some "k",
      result := { compiled := false, correctness := false },
      metadata := none, best_custom_cuda := some "k",
      best_result := { compiled := false, correctness := false } }
    (by simp [StateOk, ResultOk])
    { custom_cuda := some "k2",
      result := { compiled := true, correctness := true },
      metadata := none, best_custom_cuda := some "k2",
      best_result := { compiled := true, correctness := true } }
    (by decide)

/-- C8: throughout every execution of `run_multiturn`, the metadata passed
to the compile-fix and correctness-fix prompts is always the metadata of
the loop's start state — in `run_multiturn` the metadata produced by the
initial call to `run` — and it is never updated by any per-turn
evaluation: every prompt event in the loop trace carries it, whichever
branches are taken and however many turns run, and the final state still
holds it. -/
theorem metadata_frame_property (ref : String) (oracles : Nat → TurnOracle)
    (turns : Nat) :
    ∀ t0 st,
      (∀ ev ∈ (run_turns_from ref oracles t0 turns st).1, ∀ p,
        ev.prompt = some p → p.2.2 = st.metadata) ∧
      (∀ st1, (run_turns_from ref oracles t0 turns st).2 = .ok st1 →
        st1.metadata = st.metadata) := by
  induction turns with
  | zero =>
    intro t0 st
    constructor
    · intro ev hev
      simp [run_turns_from] at hev
    · intro st1 h
      obtain rfl : st = st1 := by
        simpa [run_turns_from] using h
      rfl
  | succ n ih =>
    intro t0 st
    rcases hp : multiturn_step ref (oracles t0) st with ⟨ev0, r2⟩
    have hprompt : ∀ p, ev0.prompt = some p → p.2.2 = st.metadata := by
      intro p hp2
      exact multiturn_step_prompt_metadata ref (oracles t0) st p
        (by rw [hp]; exact hp2)
    rcases r2 with e | st2
    · constructor
      · intro ev hev p hpp
        have hevv : ev = ev0 := by
          simpa [run_turns_from, hp] using hev
        subst hevv
        exact hprompt p hpp
      · intro st1 h
        rw [show (run_turns_from ref oracles t0 (n + 1) st).2 = .error e by
          simp [run_turns_from, hp]] at h
        exact absurd h (by simp)
    · have hmeta2 : st2.metadata = st.metadata :=
        multiturn_step_metadata ref (oracles t0) st st2 (by rw [hp])
      obtain ⟨ih1, ih2⟩ := ih (t0 + 1) st2
      constructor
      · intro ev hev p hpp
        have hmem : ev = ev0 ∨ ev ∈ (run_turns_from ref oracles (t0 + 1) n st2).1 := by
          simpa [run_turns_from, hp] using hev
        rcases hmem with rfl | hmem
        · exact hprompt p hpp
        · rw [← hmeta2]
          exact ih1 ev hmem p hpp
      · intro st1 h
        rw [show (run_turns_from ref oracles t0 (n + 1) st).2 =
          (run_turns_from ref oracles (t0 + 1) n st2).2 by
            simp [run_turns_from, hp]] at h
        rw [← hmeta2]
        exact ih2 st1 h

/-- Witness for C8: after one concrete compile-fix turn, the final state
still carries the start state's metadata. -/
theorem metadata_frame_property_witness :
    LoopState.metadata
      { custom_cuda := some "k2",
        result := { compiled := true, correctness := true },
        metadata := some "m0", best_custom_cuda := some "k2",
        best_result := { compiled := true, correctness := true } } =
      some "m0" :=
  (metadata_frame_property "ref"
    (fun _ => { response := "```python\nk2```",
                evalOutcome := .ok { compiled := true, correctness := true } })
    1 0
    { custom_cuda := some "k",
      result := { compiled := false, correctness := false },
      metadata := some "m0", best_custom_cuda := some "k",
      best_result := { compiled := false, correctness := false } }).2
    { custom_cuda := some "k2",
      result := { compiled := true, correctness := true },
      metadata := some "m0", best_custom_cuda := some "k2",
      best_result := { compiled := true, correctness := true } }
    (by decide)

/-- C2 counterexample: when `eval_kernel_against_ref` raises (message
"boom"), `run` does not return a triple with the stringified error in its
metadata field — it raises `UnboundLocalError`, because the `except`
handler of run.py:55-56 assigns `metadata` but the `return` of run.py:57
reads the never-assigned `kernel_exec_result`; and a per-turn evaluation
error inside `run_multiturn` (run.py:80, run.py:84 — not inside any `try`)
escapes to the caller. -/
theorem eval_error_escapes_counterexample :
    (run "```python\nk```" (.error "boom")).2 =
      .error (.unboundLocalError "kernel_exec_result") ∧
    run_multiturn "ref" "```python\nk```"
      (.ok { compiled := false, correctness := false })
      (fun _ => { response := "```python\nk2```",
                  evalOutcome := .error "boom" }) 1 =
      .error (.evalError "boom") := by
  constructor
  · rfl
  · decide

/-- C2 (amended): in `run`, an error raised by `eval_kernel_against_ref`
is caught and its string form assigned to the local `metadata` variable,
but the subsequent `return` references the never-assigned local
`kernel_exec_result`, so `run` raises `UnboundLocalError` and no triple is
returned; on the non-raising path the returned metadata field is `None`.
In `run_multiturn`, the per-turn evaluations are not wrapped in any
handler, so an exception raised there escapes the turn and the whole call.
-/
theorem eval_error_behaviour (response cc e : String)
    (hx : extract_first_code response "python" = some cc) :
    (run response (.error e)).2 =
      .error (.unboundLocalError "kernel_exec_result") ∧
    (∀ r, (run response (.ok r)).2 = .ok (cc, r, none)) ∧
    (∀ (ref : String) (o : TurnOracle) (st : LoopState),
      o.evalOutcome = .error e →
      (st.result.compiled = false ∨ st.result.correctness = false) →
      (multiturn_step ref o st).2 = .error (.evalError e)) ∧
    (∀ (ref : String) (oracles : Nat → TurnOracle) (n : Nat)
      (r0 : KernelExecResult), r0.compiled = false →
      (oracles 0).evalOutcome = .error e →
      run_multiturn ref response (.ok r0) oracles (n + 1) =
        .error (.evalError e)) := by
  refine ⟨?_, ?_, ?_, ?_⟩
  · unfold run
    rw [hx]
  · intro r
    unfold run
    rw [hx]
  · intro ref o st ho hbr
    rcases hbr with h1 | h2
    · simp [multiturn_step, h1, ho]
    · by_cases h1 : st.result.compiled
      · simp [multiturn_step, h1, h2, ho]
      · simp [multiturn_step, h1, ho]
  · intro ref oracles n r0 h0 he0
    have hrun : (run response (.ok r0)).2 = .ok (cc, r0, none) := by
      unfold run
      rw [hx]
    have hstep : multiturn_step ref (oracles 0)
        { custom_cuda := some cc, result := r0, metadata := none,
          best_custom_cuda := some cc, best_result := r0 } =
        ({ branch := .fixCompile, prompt := some (ref, some cc, none),
           evaluated := true }, .error (.evalError e)) := by
      simp [multiturn_step, h0, he0]
    simp [run_multiturn, hrun, run_turns_from, hstep]

/-- Witness for C2 (amended) at concrete replies, oracles and states. -/
theorem eval_error_behaviour_witness :
    (run "```python\nk```" (.error "boom")).2 =
      .error (.unboundLocalError "kernel_exec_result") ∧
    (run "```python\nk```"
        (.ok { compiled := true, correctness := true })).2 =
      .ok ("k", { compiled := true, correctness := true }, none) ∧
    (multiturn_step "ref"
      { response := "x", evalOutcome := .error "boom" }
      { custom_cuda := some "k",
        result := { compiled := false, correctness := false },
        metadata := none, best_custom_cuda := some "k",
        best_result := { compiled := false, correctness := false } }).2 =
      .error (.evalError "boom") ∧
    run_multiturn "ref" "```python\nk```"
      (.ok { compiled := false, correctness := false })
      (fun _ => { response := "x", evalOutcome := .error "boom" }) 1 =
      .error (.evalError "boom") := by
  obtain ⟨h1, h2, h3, h4⟩ :=
    eval_error_behaviour "```python\nk```" "k" "boom" (by decide)
  exact ⟨h1, h2 { compiled := true, correctness := true },
    h3 "ref" { response := "x", evalOutcome := .error "boom" }
      { custom_cuda := some "k",
        result := { compiled := false, correctness := false },
        metadata := none, best_custom_cuda := some "k",
        best_result := { compiled := false, correctness := false } }
      rfl (Or.inl rfl),
    h4 "ref" (fun _ => { response := "x", evalOutcome := .error "boom" })
      0 { compiled := false, correctness := false } rfl rfl⟩

end KernelBench
